import Mathlib

/-!
# Verification of the Brave-search MCP server core

Shallow embedding of `src/brave_search_mcp_server.py`: the session-scoped
result store with rating and persistence.  Stateful Python methods become
explicit state-passing functions on an association-list model of the
`search_sessions` dictionary; the file system and the upstream HTTP call are
modelled as explicit inputs (a list of provider items, an I/O failure flag, a
directory listing whose entries carry their post-parse content).  Python `int`
becomes `Int`, Python floats arising from `sum/len` and `round(x, 2)` become
`ℚ` with round-half-to-even at two decimals (the documented semantics of
Python's `round`; binary-float representation artifacts are abstracted).
-/

/-- Embeds the `SearchResult` pydantic model (lines 27-33): title, url,
description set at creation; `rating` and `rated_at` optional, unset until
rated. -/
structure SearchResult where
  title : String
  url : String
  description : String
  rating : Option Int
  rated_at : Option String
deriving DecidableEq, Repr

/-- The `search_sessions` dictionary (line 60), as an association list from
session id to the ordered record list.  Lookups see the first binding for a
key; insertion shadows. -/
abbrev Store := List (String × List SearchResult)

/-- Dictionary lookup `self.search_sessions[sid]` / `sid in self.search_sessions`. -/
def Store.find : Store → String → Option (List SearchResult)
  | [], _ => none
  | (k, v) :: rest, sid => if k = sid then some v else Store.find rest sid

/-- Dictionary assignment `self.search_sessions[session_id] = results`
(line 105): insert-or-shadow. -/
def Store.insert (st : Store) (sid : String) (recs : List SearchResult) : Store :=
  (sid, recs) :: st

/-- In-place mutation of the record list bound to `sid`
(`self.search_sessions[sid][i] = ...`, the effect of lines 163-165): every
binding for `sid` is replaced, keys are untouched. -/
def Store.setSession (st : Store) (sid : String) (recs : List SearchResult) : Store :=
  st.map (fun p => if p.1 = sid then (p.1, recs) else p)

theorem Store.find_insert (st : Store) (sid : String) (recs : List SearchResult)
    (sid' : String) :
    Store.find (Store.insert st sid recs) sid' =
      if sid = sid' then some recs else Store.find st sid' := by
  simp [Store.insert, Store.find]

theorem Store.find_setSession (st : Store) (sid : String) (recs : List SearchResult)
    (sid' : String) :
    Store.find (Store.setSession st sid recs) sid' =
      if sid' = sid then (Store.find st sid).map (fun _ => recs)
      else Store.find st sid' := by
  induction st with
  | nil => simp [Store.setSession, Store.find]
  | cons p rest ih =>
    obtain ⟨k, v⟩ := p
    have hmap : Store.setSession ((k, v) :: rest) sid recs =
        (if k = sid then (k, recs) else (k, v)) :: Store.setSession rest sid recs := by
      simp [Store.setSession]
    rw [hmap]
    by_cases hk : k = sid
    · subst hk
      rw [if_pos rfl]
      simp only [Store.find]
      by_cases hs : k = sid'
      · subst hs
        simp [Store.find]
      · rw [if_neg hs, ih]
        simp [Store.find, hs, Ne.symm hs]
    · rw [if_neg hk]
      simp only [Store.find]
      by_cases hs : k = sid'
      · subst hs
        simp [Store.find, hk, Ne.symm hk]
      · rw [if_neg hs, ih]
        by_cases hss : sid' = sid
        · simp [Store.find, hs, hss, hk]
        · simp [Store.find, hs, hss, hk]

/-- Error outcomes of `rate_search_result` (lines 144-160). -/
inductive RateError where
  | SessionNotFound
  | IndexOutOfRange
  | InvalidRating
deriving DecidableEq, Repr

/-- The success payload of `rate_search_result` (lines 167-173): the rated
record's title, the applied rating, and the timestamp written to the record. -/
structure RateOk where
  result_title : String
  rating : Int
  rated_at : String
deriving DecidableEq, Repr

/-- Embeds `rate_search_result` (lines 123-173).  Validation in source order:
session membership (line 144), index bounds (line 150), rating bounds
(line 156); on success mutates the targeted record's `rating` and `rated_at`
in place (lines 162-165) and returns the confirmation.  `now` stands for
`datetime.now().isoformat()`.  Returns the response together with the store
after the call. -/
def rate_search_result (store : Store) (result_index : Int) (rating : Int)
    (search_session_id : String) (now : String) :
    Except RateError RateOk × Store :=
  match Store.find store search_session_id with
  | none => (Except.error RateError.SessionNotFound, store)
  | some results =>
    if hidx : 0 ≤ result_index ∧ result_index < results.length then
      if 1 ≤ rating ∧ rating ≤ 5 then
        let i : Nat := result_index.toNat
        let r := results.get ⟨i, by omega⟩
        let r2 : SearchResult := { r with rating := some rating, rated_at := some now }
        (Except.ok { result_title := r.title, rating := rating, rated_at := now },
          Store.setSession store search_session_id (results.set i r2))
      else (Except.error RateError.InvalidRating, store)
    else (Except.error RateError.IndexOutOfRange, store)

/-- One item of the provider's `web.results` array (lines 324-328): the
`title`, `url`, `description` keys are each optional (`item.get(key, "")`). -/
structure ProviderItem where
  title : Option String
  url : Option String
  description : Option String
deriving DecidableEq, Repr

/-- Builds one `SearchResult` from one provider item (lines 325-329):
missing fields default to the empty string, `rating` and `rated_at` start
unset. -/
def mkSearchResult (item : ProviderItem) : SearchResult :=
  { title := item.title.getD ""
    url := item.url.getD ""
    description := item.description.getD ""
    rating := none
    rated_at := none }

/-- Embeds the response-mapping loop of `_search_brave` (lines 321-332): one
record is appended per item of the provider's result array, in array order.
The HTTP request itself is external; its decoded `web.results` array is the
input.  Note the `count` argument of the surrounding call does not occur
here: the code never truncates the provider's array. -/
def search_brave (items : List ProviderItem) : List SearchResult :=
  items.map mkSearchResult

/-- The fields of the `perform_web_search` response that the claims mention
(lines 107-113 and the error branches at 92-97 and 115-120). -/
structure SearchResponse where
  session_id : Option String
  results_count : Nat
  results : List SearchResult
  err : Option String
deriving DecidableEq, Repr

/-- Embeds `perform_web_search` (lines 72-120).  `hasApiKey` models the
`self.brave_api_key` check (line 92); `upstream` is the outcome of the
awaited `_search_brave` call, already reduced to its decoded result array or
an exception message; `session_id` stands for the generated
`search_{timestamp}_{hash}` string (line 104).  On success the results are
stored in the session dictionary (line 105). -/
def perform_web_search (store : Store) (hasApiKey : Bool)
    (upstream : Except String (List ProviderItem)) (session_id : String) :
    SearchResponse × Store :=
  if !hasApiKey then
    ({ session_id := none, results_count := 0, results := [], err := some "Brave API key not configured" }, store)
  else
    match upstream with
    | Except.error e =>
      ({ session_id := none, results_count := 0, results := [], err := some e }, store)
    | Except.ok items =>
      let search_results := search_brave items
      ({ session_id := some session_id
         results_count := search_results.length
         results := search_results
         err := none },
       Store.insert store session_id search_results)

/-- The character filter of line 213: keep `c` iff `c.isalnum()` or `c` is a
space, hyphen or underscore. -/
def keepChar (c : Char) : Bool :=
  c.isAlphanum || c = ' ' || c = '-' || c = '_'

/-- `.replace(' ', '_')` of line 214, one character at a time. -/
def spaceToUnderscore (c : Char) : Char :=
  if c = ' ' then '_' else c

/-- Embeds the filename cleaning of lines 213-214 on the character list of
the filename: keep only alphanumerics, spaces, hyphens and underscores;
strip trailing whitespace (`.rstrip()`); replace spaces with underscores. -/
def sanitizeChars (l : List Char) : List Char :=
  (((l.filter keepChar).reverse.dropWhile Char.isWhitespace).reverse).map spaceToUnderscore

/-- Lines 213-214 on `String`. -/
def sanitizeFilename (s : String) : String :=
  String.mk (sanitizeChars s.data)

/-- Round a rational to the nearest integer, ties to even: the documented
behaviour of Python's builtin `round`. -/
def roundHalfEven (q : ℚ) : ℤ :=
  if q - Int.floor q = 1 / 2 then
    (if Int.floor q % 2 = 0 then Int.floor q else Int.floor q + 1)
  else round q

/-- Python's `round(x, 2)` (line 339) on the idealized rational value. -/
def round2 (q : ℚ) : ℚ :=
  (roundHalfEven (q * 100) : ℚ) / 100

/-- Embeds `_calculate_average_rating` (lines 334-339): collect the ratings
that are set; `None` if there are none, otherwise their mean rounded to two
decimals. -/
def calculate_average_rating (results : List SearchResult) : Option ℚ :=
  let rated_results : List Int := results.filterMap (fun r => r.rating)
  if rated_results.isEmpty then none
  else some (round2 ((rated_results.sum : ℚ) / (rated_results.length : ℚ)))

/-- The `metadata` block assembled at lines 220-226.  `average_rating` is
`none` exactly when the Python value is `None` (serialized as JSON null —
the key itself is always written). -/
structure SaveMetadata where
  session_id : String
  saved_at : String
  total_results : Nat
  rated_results : Nat
  average_rating : Option ℚ
deriving DecidableEq, Repr

/-- The `save_data` document written by `save_search_results`
(lines 219-228). -/
structure SavedData where
  metadata : SaveMetadata
  results : List SearchResult
deriving DecidableEq, Repr

/-- A file write performed by a successful save (lines 231-232): the file
name `<sanitized>.json` and its content after JSON decoding. -/
structure FileWrite where
  name : String
  content : SavedData
deriving DecidableEq, Repr

/-- Error outcomes of `save_search_results` (lines 198-202 and 243-247). -/
inductive SaveError where
  | SessionNotFound
  | PersistenceError
deriving DecidableEq, Repr

/-- The success payload of `save_search_results` (lines 234-241). -/
structure SaveOk where
  filepath : String
  filename : String
  results_saved : Nat
  rated_results : Nat
deriving DecidableEq, Repr

instance {ε α : Type} [DecidableEq ε] [DecidableEq α] : DecidableEq (Except ε α) :=
  fun x y =>
    match x, y with
    | Except.ok a, Except.ok b =>
      if h : a = b then isTrue (by rw [h]) else isFalse (fun hc => h (Except.ok.inj hc))
    | Except.ok _, Except.error _ => isFalse (fun hc => Except.noConfusion hc)
    | Except.error _, Except.ok _ => isFalse (fun hc => Except.noConfusion hc)
    | Except.error e, Except.error f =>
      if h : e = f then isTrue (by rw [h]) else isFalse (fun hc => h (Except.error.inj hc))

/-- Full outcome of a save call: the structured response, the file written
(when the write succeeded), and the session store after the call. -/
structure SaveOutcome where
  response : Except SaveError SaveOk
  write : Option FileWrite
  store : Store
deriving DecidableEq, Repr

/-- Embeds `save_search_results` (lines 176-247).  `filename` is the
optional argument (Python treats `None` and `""` alike via `if not
filename`, line 207); `timestamp` stands for
`datetime.now().strftime("%Y%m%d_%H%M%S")` (line 209) and `saved_at` for
`datetime.now().isoformat()` (line 222); `ioFails` tells whether the
`aiofiles` write raises (lines 230-247). -/
def save_search_results (store : Store) (search_session_id : String)
    (filename : Option String) (timestamp saved_at : String) (ioFails : Bool) :
    SaveOutcome :=
  match Store.find store search_session_id with
  | none => { response := Except.error SaveError.SessionNotFound, write := none, store := store }
  | some results =>
    let defaultName :=
      "search_results_" ++
        (match results with
         | [] => "unknown"
         | r :: _ => r.title.take 30) ++ "_" ++ timestamp
    let rawName :=
      match filename with
      | none => defaultName
      | some f => if f.isEmpty then defaultName else f
    let fname := sanitizeFilename rawName
    let save_data : SavedData :=
      { metadata :=
          { session_id := search_session_id
            saved_at := saved_at
            total_results := results.length
            rated_results := (results.filter (fun r => r.rating.isSome)).length
            average_rating := calculate_average_rating results }
        results := results }
    if ioFails then
      { response := Except.error SaveError.PersistenceError, write := none, store := store }
    else
      { response := Except.ok
          { filepath := "search_results/" ++ fname ++ ".json"
            filename := fname ++ ".json"
            results_saved := results.length
            rated_results := (results.filter (fun r => r.rating.isSome)).length }
        write := some { name := fname ++ ".json", content := save_data }
        store := store }

/-- The `metadata` block of an artifact as found on disk, after JSON
parsing.  Each key may be absent (outer `Option` — then `.get(key, default)`
substitutes the default) and `average_rating`, when present, may hold JSON
null (inner `none`) or a number. -/
structure MetaJson where
  session_id : Option String
  saved_at : Option String
  total_results : Option Int
  rated_results : Option Int
  average_rating : Option (Option ℚ)
deriving DecidableEq, Repr

/-- A parsed artifact file: the top-level `metadata` key may itself be
absent (`data.get("metadata", {})`, lines 275-279). -/
structure ArtifactJson where
  metadata : Option MetaJson
deriving DecidableEq, Repr

/-- One `.json` file of the results directory as seen by
`list_saved_results`: its name and the outcome of reading and JSON-parsing
it (`Except.error ()` for a corrupt or unreadable file, lines 267-283). -/
structure FileEntry where
  name : String
  content : Except Unit ArtifactJson
deriving DecidableEq, Repr

/-- One entry of the returned `files` list (lines 272-280).  In
`average_rating`, `none` is JSON null; the default `0` is used only when the
key is absent. -/
structure CatalogEntry where
  filename : String
  filepath : String
  session_id : String
  saved_at : String
  total_results : Int
  rated_results : Int
  average_rating : Option ℚ
deriving DecidableEq, Repr

/-- An empty metadata block: what `data.get("metadata", {})` yields when the
key is missing. -/
def emptyMetaJson : MetaJson :=
  { session_id := none, saved_at := none, total_results := none
    rated_results := none, average_rating := none }

/-- Builds one catalog entry from one parsed artifact (lines 272-280),
substituting the defaults `"unknown"` and `0` for absent keys. -/
def summarize (name : String) (a : ArtifactJson) : CatalogEntry :=
  let m := a.metadata.getD emptyMetaJson
  { filename := name
    filepath := "search_results/" ++ name
    session_id := m.session_id.getD "unknown"
    saved_at := m.saved_at.getD "unknown"
    total_results := m.total_results.getD 0
    rated_results := m.rated_results.getD 0
    average_rating :=
      match m.average_rating with
      | none => some 0
      | some v => v }

/-- Insertion step of `saved_files.sort(key=lambda x: x.get("saved_at", ""),
reverse=True)` (line 286): descending, stable on equal keys. -/
def insertBySavedAt (e : CatalogEntry) : List CatalogEntry → List CatalogEntry
  | [] => [e]
  | x :: xs => if x.saved_at < e.saved_at then e :: x :: xs else x :: insertBySavedAt e xs

/-- The sort of line 286. -/
def sortBySavedAtDesc (l : List CatalogEntry) : List CatalogEntry :=
  l.foldr insertBySavedAt []

/-- Error outcome of `list_saved_results` (lines 294-298): only raised when
enumerating the directory itself fails. -/
inductive CatalogFailure where
  | CatalogError
deriving DecidableEq, Repr

/-- The success payload of `list_saved_results` (lines 288-292). -/
structure CatalogOk where
  total_files : Nat
  files : List CatalogEntry
deriving DecidableEq, Repr

/-- Embeds `list_saved_results` (lines 250-298).  `dir` is the outcome of
`self.results_dir.glob("*.json")`: either a failure of the enumeration
itself, or the list of `.json` files with their post-parse contents.  Files
whose read or parse raises are skipped (lines 281-283); the survivors are
summarized and sorted by `saved_at` descending. -/
def list_saved_results (dir : Except Unit (List FileEntry)) :
    Except CatalogFailure CatalogOk :=
  match dir with
  | Except.error _ => Except.error CatalogFailure.CatalogError
  | Except.ok files =>
    let saved_files := files.filterMap (fun f =>
      match f.content with
      | Except.error _ => none
      | Except.ok a => some (summarize f.name a))
    let sorted := sortBySavedAtDesc saved_files
    Except.ok { total_files := sorted.length, files := sorted }

theorem rate_eq_notFound (store : Store) (idx rating : Int) (sid now : String)
    (h : Store.find store sid = none) :
    rate_search_result store idx rating sid now =
      (Except.error RateError.SessionNotFound, store) := by
  unfold rate_search_result
  rw [h]

theorem rate_eq_oob (store : Store) (idx rating : Int) (sid now : String)
    (recs : List SearchResult) (hfind : Store.find store sid = some recs)
    (hidx : ¬(0 ≤ idx ∧ idx < (recs.length : Int))) :
    rate_search_result store idx rating sid now =
      (Except.error RateError.IndexOutOfRange, store) := by
  unfold rate_search_result
  rw [hfind]
  exact dif_neg hidx

theorem rate_eq_invalidRating (store : Store) (idx rating : Int) (sid now : String)
    (recs : List SearchResult) (hfind : Store.find store sid = some recs)
    (hidx : 0 ≤ idx ∧ idx < (recs.length : Int))
    (hr : ¬(1 ≤ rating ∧ rating ≤ 5)) :
    rate_search_result store idx rating sid now =
      (Except.error RateError.InvalidRating, store) := by
  unfold rate_search_result
  rw [hfind]
  exact (dif_pos hidx).trans (if_neg hr)

theorem rate_eq_success (store : Store) (idx rating : Int) (sid now : String)
    (recs : List SearchResult) (hfind : Store.find store sid = some recs)
    (hidx : 0 ≤ idx ∧ idx < (recs.length : Int))
    (hr : 1 ≤ rating ∧ rating ≤ 5) :
    rate_search_result store idx rating sid now =
      (Except.ok
        { result_title := (recs.get ⟨idx.toNat, by omega⟩).title
          rating := rating
          rated_at := now },
       Store.setSession store sid
         (recs.set idx.toNat
           { recs.get ⟨idx.toNat, by omega⟩ with
               rating := some rating, rated_at := some now })) := by
  unfold rate_search_result
  rw [hfind]
  exact (dif_pos hidx).trans (if_pos hr)

/-- C2: the rate operation validates in exactly this order — `SessionNotFound`
if the session id is absent, otherwise `IndexOutOfRange` if the index is not
in `[0, len-1]`, otherwise `InvalidRating` if the rating is not in `[1,5]`;
when index and rating are both invalid the failure is `IndexOutOfRange`, not
`InvalidRating`. -/
theorem rate_validation_order (store : Store) (idx rating : Int) (sid now : String) :
    (Store.find store sid = none →
      rate_search_result store idx rating sid now =
        (Except.error RateError.SessionNotFound, store)) ∧
    (∀ recs, Store.find store sid = some recs →
      ¬(0 ≤ idx ∧ idx < (recs.length : Int)) →
      rate_search_result store idx rating sid now =
        (Except.error RateError.IndexOutOfRange, store)) ∧
    (∀ recs, Store.find store sid = some recs →
      (0 ≤ idx ∧ idx < (recs.length : Int)) →
      ¬(1 ≤ rating ∧ rating ≤ 5) →
      rate_search_result store idx rating sid now =
        (Except.error RateError.InvalidRating, store)) ∧
    (∀ recs, Store.find store sid = some recs →
      ¬(0 ≤ idx ∧ idx < (recs.length : Int)) →
      ¬(1 ≤ rating ∧ rating ≤ 5) →
      (rate_search_result store idx rating sid now).1 =
          Except.error RateError.IndexOutOfRange ∧
        (rate_search_result store idx rating sid now).1 ≠
          Except.error RateError.InvalidRating) := by
  refine ⟨fun h => rate_eq_notFound store idx rating sid now h,
    fun recs hfind hidx => rate_eq_oob store idx rating sid now recs hfind hidx,
    fun recs hfind hidx hr => rate_eq_invalidRating store idx rating sid now recs hfind hidx hr,
    fun recs hfind hidx hr => ?_⟩
  rw [rate_eq_oob store idx rating sid now recs hfind hidx]
  exact ⟨rfl, by simp⟩

/-- Witness for C2: a concrete one-record session, index 7 and rating 9 both
invalid — the failure is `IndexOutOfRange` and not `InvalidRating`. -/
theorem rate_validation_order_witness :
    (rate_search_result
        [("s", [{ title := "A", url := "u", description := "d",
                  rating := none, rated_at := none }])] 7 9 "s" "T").1 =
        Except.error RateError.IndexOutOfRange ∧
      (rate_search_result
        [("s", [{ title := "A", url := "u", description := "d",
                  rating := none, rated_at := none }])] 7 9 "s" "T").1 ≠
        Except.error RateError.InvalidRating :=
  (rate_validation_order
      [("s", [{ title := "A", url := "u", description := "d",
                rating := none, rated_at := none }])] 7 9 "s" "T").2.2.2
    [{ title := "A", url := "u", description := "d", rating := none, rated_at := none }]
    (by decide) (by decide) (by decide)

/-- C3: whenever the rate operation fails — `IndexOutOfRange` for an index
outside `[0, len-1]` on an existing session, `InvalidRating` for a rating
outside `[1,5]` — the session store after the call is exactly the store
before the call. -/
theorem rate_failure_unmutated (store : Store) (idx rating : Int) (sid now : String) :
    (∀ recs, Store.find store sid = some recs →
      ¬(0 ≤ idx ∧ idx < (recs.length : Int)) →
      rate_search_result store idx rating sid now =
        (Except.error RateError.IndexOutOfRange, store)) ∧
    (∀ recs, Store.find store sid = some recs →
      (0 ≤ idx ∧ idx < (recs.length : Int)) →
      ¬(1 ≤ rating ∧ rating ≤ 5) →
      rate_search_result store idx rating sid now =
        (Except.error RateError.InvalidRating, store)) ∧
    (∀ e, (rate_search_result store idx rating sid now).1 = Except.error e →
      (rate_search_result store idx rating sid now).2 = store) := by
  refine ⟨fun recs hfind hidx => rate_eq_oob store idx rating sid now recs hfind hidx,
    fun recs hfind hidx hr => rate_eq_invalidRating store idx rating sid now recs hfind hidx hr,
    fun e he => ?_⟩
  cases hfind : Store.find store sid with
  | none => rw [rate_eq_notFound store idx rating sid now hfind]
  | some recs =>
    by_cases hidx : 0 ≤ idx ∧ idx < (recs.length : Int)
    · by_cases hr : 1 ≤ rating ∧ rating ≤ 5
      · rw [rate_eq_success store idx rating sid now recs hfind hidx hr] at he
        exact absurd he (by simp)
      · rw [rate_eq_invalidRating store idx rating sid now recs hfind hidx hr]
    · rw [rate_eq_oob store idx rating sid now recs hfind hidx]

/-- Witness for C3: rating an out-of-range index of a concrete session fails
and leaves the store unchanged. -/
theorem rate_failure_unmutated_witness :
    rate_search_result
        [("s", [{ title := "A", url := "u", description := "d",
                  rating := none, rated_at := none }])] 3 4 "s" "T" =
      (Except.error RateError.IndexOutOfRange,
       [("s", [{ title := "A", url := "u", description := "d",
                 rating := none, rated_at := none }])]) :=
  (rate_failure_unmutated
      [("s", [{ title := "A", url := "u", description := "d",
                rating := none, rated_at := none }])] 3 4 "s" "T").1
    [{ title := "A", url := "u", description := "d", rating := none, rated_at := none }]
    (by decide) (by decide)

/-- C6: a successful rate call (session present, index in range, rating in
`[1,5]`) sets the targeted record's `rating` to the given rating and its
`rated_at` to the current timestamp, in place in the session store; the
confirmation carries that record's title and the applied rating; every other
record and every other session is unchanged. -/
theorem rate_success_spec (store : Store) (idx rating : Int) (sid now : String)
    (recs : List SearchResult) (hfind : Store.find store sid = some recs)
    (hidx : 0 ≤ idx ∧ idx < (recs.length : Int))
    (hr : 1 ≤ rating ∧ rating ≤ 5) :
    ∃ r, recs[idx.toNat]? = some r ∧
      (rate_search_result store idx rating sid now).1 =
        Except.ok { result_title := r.title, rating := rating, rated_at := now } ∧
      Store.find (rate_search_result store idx rating sid now).2 sid =
        some (recs.set idx.toNat { r with rating := some rating, rated_at := some now }) ∧
      (∀ sid', sid' ≠ sid →
        Store.find (rate_search_result store idx rating sid now).2 sid' =
          Store.find store sid') ∧
      (∀ j : Nat, j ≠ idx.toNat →
        (recs.set idx.toNat { r with rating := some rating, rated_at := some now })[j]? =
          recs[j]?) := by
  have hlt : idx.toNat < recs.length := by omega
  refine ⟨recs.get ⟨idx.toNat, hlt⟩, ?_, ?_, ?_, ?_, ?_⟩
  · exact List.getElem?_eq_getElem hlt
  · rw [rate_eq_success store idx rating sid now recs hfind hidx hr]
  · rw [rate_eq_success store idx rating sid now recs hfind hidx hr]
    simp [Store.find_setSession, hfind]
  · intro sid' hne
    rw [rate_eq_success store idx rating sid now recs hfind hidx hr]
    simp only [Store.find_setSession, if_neg hne]
  · intro j hj
    exact List.getElem?_set_ne (Ne.symm hj)

/-- Witness for C6: rating index 0 of a concrete one-record session with 5
applies the rating, stamps the timestamp and touches nothing else. -/
theorem rate_success_spec_witness :
    ∃ r, ([{ title := "A", url := "u", description := "d",
             rating := none, rated_at := none }] :
          List SearchResult)[(3 : Int).toNat - 3]? = some r ∧
      (rate_search_result
          [("s", [{ title := "A", url := "u", description := "d",
                    rating := none, rated_at := none }])] 0 5 "s" "T").1 =
        Except.ok { result_title := r.title, rating := 5, rated_at := "T" } ∧
      Store.find (rate_search_result
          [("s", [{ title := "A", url := "u", description := "d",
                    rating := none, rated_at := none }])] 0 5 "s" "T").2 "s" =
        some ([{ title := "A", url := "u", description := "d",
                 rating := none, rated_at := none }].set (0 : Int).toNat
          { r with rating := some 5, rated_at := some "T" }) ∧
      (∀ sid', sid' ≠ "s" →
        Store.find (rate_search_result
            [("s", [{ title := "A", url := "u", description := "d",
                      rating := none, rated_at := none }])] 0 5 "s" "T").2 sid' =
          Store.find [("s", [{ title := "A", url := "u", description := "d",
                               rating := none, rated_at := none }])] sid') ∧
      (∀ j : Nat, j ≠ (0 : Int).toNat →
        ([{ title := "A", url := "u", description := "d",
            rating := none, rated_at := none }].set (0 : Int).toNat
          { r with rating := some 5, rated_at := some "T" })[j]? =
          ([{ title := "A", url := "u", description := "d",
              rating := none, rated_at := none }] : List SearchResult)[j]?) := by
  have h := rate_success_spec
    [("s", [{ title := "A", url := "u", description := "d",
              rating := none, rated_at := none }])] 0 5 "s" "T"
    [{ title := "A", url := "u", description := "d", rating := none, rated_at := none }]
    (by decide) (by decide) (by decide)
  simpa using h

/-- Counterexample to C1 as stated: with `count = 1` (valid, in `[1,20]`) and
a provider response array of 2 items — at least `count` — the search maps
every provider item, so it returns 2 records, not exactly `count = 1`. -/
theorem search_count_counterexample :
    1 ≤ 1 ∧ 1 ≤ 20 ∧
      1 ≤ ([{ title := some "a", url := some "u", description := some "d" },
            { title := some "b", url := some "v", description := some "e" }] :
           List ProviderItem).length ∧
      (search_brave
        [{ title := some "a", url := some "u", description := some "d" },
         { title := some "b", url := some "v", description := some "e" }]).length ≠ 1 := by
  decide

/-- C1 (amended): a successful search returns exactly one Result Record per
item of the provider's response array, preserving provider order with no
deduplication, ranking or filtering; in particular, for valid `count` in
`[1,20]` it returns exactly `count` records when the provider returns
exactly `count` items. -/
theorem search_passthrough (count : Nat) (items : List ProviderItem)
    (h1 : 1 ≤ count) (h20 : count ≤ 20) (hlen : items.length = count) :
    (search_brave items).length = count ∧
      ∀ i : Nat, (search_brave items)[i]? = (items[i]?).map mkSearchResult := by
  constructor
  · simp [search_brave, hlen]
  · intro i
    simp [search_brave, List.getElem?_map]

/-- Witness for C1 (amended): a concrete two-item provider response with
`count = 2` yields exactly 2 records, one per item in order. -/
theorem search_passthrough_witness :
    (search_brave
      [{ title := some "a", url := some "u", description := some "d" },
       { title := none, url := none, description := none }]).length = 2 ∧
      ∀ i : Nat,
        (search_brave
          [{ title := some "a", url := some "u", description := some "d" },
           { title := none, url := none, description := none }])[i]? =
          (([{ title := some "a", url := some "u", description := some "d" },
             { title := none, url := none, description := none }] :
            List ProviderItem)[i]?).map mkSearchResult :=
  search_passthrough 2
    [{ title := some "a", url := some "u", description := some "d" },
     { title := none, url := none, description := none }]
    (by decide) (by decide) (by decide)

/-- C9: save is read-only on the session store — whatever the session, the
filename argument and the I/O outcome, the store after the call is exactly
the store before it; and on an I/O failure of an existing session the
response is `PersistenceError`. -/
theorem save_readonly (store : Store) (sid : String) (filename : Option String)
    (timestamp saved_at : String) (ioFails : Bool) :
    (save_search_results store sid filename timestamp saved_at ioFails).store = store ∧
      (∀ recs, Store.find store sid = some recs → ioFails = true →
        (save_search_results store sid filename timestamp saved_at ioFails).response =
          Except.error SaveError.PersistenceError) := by
  constructor
  · unfold save_search_results
    cases hfind : Store.find store sid with
    | none => rfl
    | some recs =>
      cases ioFails with
      | false => rfl
      | true => rfl
  · intro recs hfind hio
    subst hio
    unfold save_search_results
    rw [hfind]
    rfl

/-- Witness for C9: a concrete failing save (I/O failure flagged) leaves the
one-session store untouched and reports `PersistenceError`. -/
theorem save_readonly_witness :
    (save_search_results
        [("s", [{ title := "A", url := "u", description := "d",
                  rating := none, rated_at := none }])] "s" none "TS" "SAT" true).store =
      [("s", [{ title := "A", url := "u", description := "d",
                rating := none, rated_at := none }])] ∧
      (save_search_results
          [("s", [{ title := "A", url := "u", description := "d",
                    rating := none, rated_at := none }])] "s" none "TS" "SAT" true).response =
        Except.error SaveError.PersistenceError := by
  have h := save_readonly
    [("s", [{ title := "A", url := "u", description := "d",
              rating := none, rated_at := none }])] "s" none "TS" "SAT" true
  exact ⟨h.1, h.2
    [{ title := "A", url := "u", description := "d", rating := none, rated_at := none }]
    (by decide) rfl⟩

theorem filterMap_rating (l : List SearchResult) :
    l.filterMap (fun r => r.rating) =
      (l.filter (fun r => r.rating.isSome)).map (fun r => r.rating.getD 0) := by
  induction l with
  | nil => rfl
  | cons r t ih =>
    cases hr : r.rating with
    | none => simp [List.filterMap_cons, List.filter_cons, hr, ih]
    | some v => simp [List.filterMap_cons, List.filter_cons, hr, ih]

theorem save_write_content (store : Store) (sid : String) (filename : Option String)
    (timestamp saved_at : String) (recs : List SearchResult)
    (hfind : Store.find store sid = some recs) :
    ∃ w, (save_search_results store sid filename timestamp saved_at false).write = some w ∧
      w.content =
        { metadata :=
            { session_id := sid
              saved_at := saved_at
              total_results := recs.length
              rated_results := (recs.filter (fun r => r.rating.isSome)).length
              average_rating := calculate_average_rating recs }
          results := recs } := by
  unfold save_search_results
  rw [hfind]
  exact ⟨_, rfl, rfl⟩

/-- C4: the `average_rating` field of a saved artifact's metadata equals the
arithmetic mean of the ratings of exactly those records whose rating is set,
rounded to 2 decimal places, and is null (`none`) when no record in the
session has a rating set. -/
theorem save_average_rating (store : Store) (sid : String) (filename : Option String)
    (timestamp saved_at : String) (recs : List SearchResult)
    (hfind : Store.find store sid = some recs) :
    ∃ w, (save_search_results store sid filename timestamp saved_at false).write = some w ∧
      w.content.metadata.average_rating =
        (if (recs.filter (fun r => r.rating.isSome)).isEmpty then none
         else some (round2
           ((((recs.filter (fun r => r.rating.isSome)).map
                (fun r => r.rating.getD 0)).sum : ℚ) /
            ((recs.filter (fun r => r.rating.isSome)).length : ℚ)))) ∧
      ((∀ r ∈ recs, r.rating = none) →
        w.content.metadata.average_rating = none) := by
  obtain ⟨w, hw, hc⟩ := save_write_content store sid filename timestamp saved_at recs hfind
  refine ⟨w, hw, ?_, ?_⟩
  · rw [hc]
    show calculate_average_rating recs = _
    unfold calculate_average_rating
    rw [filterMap_rating]
    cases hempty : recs.filter (fun r => r.rating.isSome) with
    | nil => simp
    | cons a t => simp [Function.comp_def]
  · intro hnone
    rw [hc]
    show calculate_average_rating recs = none
    unfold calculate_average_rating
    have hnil : recs.filterMap (fun r => r.rating) = [] := by
      rw [List.filterMap_eq_nil_iff]
      exact hnone
    simp [hnil]

/-- Witness for C4: saving a concrete session whose records carry ratings 5
and 3 (and one unrated record) writes an artifact whose metadata average is
the mean of the set ratings, rounded; a fully unrated session yields null. -/
theorem save_average_rating_witness :
    ∃ w, (save_search_results
        [("s", [{ title := "A", url := "u", description := "d",
                  rating := some 5, rated_at := some "T" },
                { title := "B", url := "v", description := "e",
                  rating := some 3, rated_at := some "T" },
                { title := "C", url := "w", description := "f",
                  rating := none, rated_at := none }])] "s" none "TS" "SAT" false).write =
        some w ∧
      w.content.metadata.average_rating = some 4 := by
  obtain ⟨w, hw, havg, -⟩ := save_average_rating
    [("s", [{ title := "A", url := "u", description := "d",
              rating := some 5, rated_at := some "T" },
            { title := "B", url := "v", description := "e",
              rating := some 3, rated_at := some "T" },
            { title := "C", url := "w", description := "f",
              rating := none, rated_at := none }])] "s" none "TS" "SAT"
    [{ title := "A", url := "u", description := "d",
       rating := some 5, rated_at := some "T" },
     { title := "B", url := "v", description := "e",
       rating := some 3, rated_at := some "T" },
     { title := "C", url := "w", description := "f",
       rating := none, rated_at := none }] (by decide)
  refine ⟨w, hw, ?_⟩
  rw [havg]
  simp only [List.filter, List.map]
  norm_num [round2, roundHalfEven, round_eq]

/-- §3 invariant on one record: `rating` and `rated_at` are both set or both
unset. -/
def recordConsistent (r : SearchResult) : Prop :=
  r.rating.isSome = r.rated_at.isSome

instance (r : SearchResult) : Decidable (recordConsistent r) := by
  unfold recordConsistent
  infer_instance

/-- The §3 invariant over the whole session store: every record of every
binding satisfies `recordConsistent`. -/
def storeConsistent (st : Store) : Prop :=
  ∀ e ∈ st, ∀ r ∈ e.2, recordConsistent r

instance (st : Store) : Decidable (storeConsistent st) := by
  unfold storeConsistent
  infer_instance

theorem Store.find_mem (st : Store) (sid : String) (v : List SearchResult)
    (h : Store.find st sid = some v) : (sid, v) ∈ st := by
  induction st with
  | nil => simp [Store.find] at h
  | cons p rest ih =>
    obtain ⟨k, w⟩ := p
    by_cases hk : k = sid
    · subst hk
      have hwv : w = v := by simpa [Store.find] using h
      subst hwv
      exact List.mem_cons_self _ _
    · simp only [Store.find, if_neg hk] at h
      exact List.mem_cons_of_mem _ (ih h)

/-- C5: every record of a fresh search has `rating` and `rated_at` both
unset, and every operation preserves the invariant that they are both set
or both unset — search inserts fresh records, a successful rate sets both
together and a failing rate changes nothing, save never touches the
store. -/
theorem rating_timestamp_invariant :
    (∀ items, ∀ r ∈ search_brave items, r.rating = none ∧ r.rated_at = none) ∧
    (∀ store hasApiKey upstream sid, storeConsistent store →
      storeConsistent (perform_web_search store hasApiKey upstream sid).2) ∧
    (∀ store idx rating sid now, storeConsistent store →
      storeConsistent (rate_search_result store idx rating sid now).2) ∧
    (∀ store sid filename timestamp saved_at ioFails, storeConsistent store →
      storeConsistent (save_search_results store sid filename timestamp saved_at ioFails).store) := by
  have hfresh : ∀ items, ∀ r ∈ search_brave items, r.rating = none ∧ r.rated_at = none := by
    intro items r hr
    simp only [search_brave, List.mem_map] at hr
    obtain ⟨item, -, hitem⟩ := hr
    subst hitem
    exact ⟨rfl, rfl⟩
  refine ⟨hfresh, ?_, ?_, ?_⟩
  · intro store hasApiKey upstream sid hst
    cases hasApiKey with
    | false => exact hst
    | true =>
      cases upstream with
      | error e => exact hst
      | ok items =>
        intro e he r hr
        simp only [perform_web_search, Store.insert] at he
        rcases List.mem_cons.mp he with hhead | htail
        · subst hhead
          obtain ⟨h1, h2⟩ := hfresh items r hr
          unfold recordConsistent
          rw [h1, h2]
          rfl
        · exact hst e htail r hr
  · intro store idx rating sid now hst
    cases hfind : Store.find store sid with
    | none =>
      rw [rate_eq_notFound store idx rating sid now hfind]
      exact hst
    | some recs =>
      by_cases hidx : 0 ≤ idx ∧ idx < (recs.length : Int)
      · by_cases hr : 1 ≤ rating ∧ rating ≤ 5
        · rw [rate_eq_success store idx rating sid now recs hfind hidx hr]
          intro e he r hmem
          simp only [Store.setSession, List.mem_map] at he
          obtain ⟨e0, he0, hfe⟩ := he
          by_cases hk : e0.1 = sid
          · rw [if_pos hk] at hfe
            subst hfe
            rcases List.mem_or_eq_of_mem_set hmem with hin | hnew
            · exact hst (sid, recs) (hk ▸ Store.find_mem store sid recs hfind) r hin
            · subst hnew
              unfold recordConsistent
              rfl
          · rw [if_neg hk] at hfe
            subst hfe
            exact hst e0 he0 r hmem
        · rw [rate_eq_invalidRating store idx rating sid now recs hfind hidx hr]
          exact hst
      · rw [rate_eq_oob store idx rating sid now recs hfind hidx]
        exact hst
  · intro store sid filename timestamp saved_at ioFails hst
    rw [(save_readonly store sid filename timestamp saved_at ioFails).1]
    exact hst

/-- Witness for C5: the invariant holds for a concrete store and is
preserved by a concrete successful rate call. -/
theorem rating_timestamp_invariant_witness :
    storeConsistent
      (rate_search_result
        [("s", [{ title := "A", url := "u", description := "d",
                  rating := none, rated_at := none }])] 0 4 "s" "T").2 :=
  rating_timestamp_invariant.2.2.1
    [("s", [{ title := "A", url := "u", description := "d",
              rating := none, rated_at := none }])] 0 4 "s" "T" (by decide)

theorem keepChar_whitespace (c : Char) (hk : keepChar c = true)
    (hw : c.isWhitespace = true) : c = ' ' := by
  simp only [Char.isWhitespace, Bool.or_eq_true, decide_eq_true_eq] at hw
  rcases hw with ((h | h) | h) | h
  · exact h
  · subst h
    exact absurd hk (by decide)
  · subst h
    exact absurd hk (by decide)
  · subst h
    exact absurd hk (by decide)

theorem mem_sanitizeChars (l : List Char) (c : Char) (hc : c ∈ sanitizeChars l) :
    keepChar c = true ∧ c ≠ ' ' ∧ c.isWhitespace = false := by
  unfold sanitizeChars at hc
  obtain ⟨d, hd, hcd⟩ := List.mem_map.mp hc
  have hdl : d ∈ l.filter keepChar := by
    have h1 : d ∈ (l.filter keepChar).reverse :=
      (List.dropWhile_sublist Char.isWhitespace).mem (List.mem_reverse.mp hd)
    exact List.mem_reverse.mp h1
  have hkeep : keepChar d = true := (List.mem_filter.mp hdl).2
  subst hcd
  by_cases hsp : d = ' '
  · subst hsp
    refine ⟨by decide, by decide, by decide⟩
  · have hcd : spaceToUnderscore d = d := by
      unfold spaceToUnderscore
      exact if_neg hsp
    rw [hcd]
    refine ⟨hkeep, hsp, ?_⟩
    by_cases hwsp : d.isWhitespace = true
    · exact absurd (keepChar_whitespace d hkeep hwsp) hsp
    · simpa using hwsp

theorem dropWhile_eq_self_of_none (p : Char → Bool) (m : List Char)
    (h : ∀ c ∈ m, p c = false) : m.dropWhile p = m := by
  cases m with
  | nil => rfl
  | cons a t => simp [List.dropWhile_cons, h a (List.mem_cons_self a t)]

theorem map_eq_self_of_fixed (f : Char → Char) (m : List Char)
    (h : ∀ c ∈ m, f c = c) : m.map f = m := by
  induction m with
  | nil => rfl
  | cons a t ih =>
    rw [List.map_cons, h a (List.mem_cons_self a t),
      ih (fun c hc => h c (List.mem_cons_of_mem a hc))]

theorem sanitizeChars_idem (l : List Char) :
    sanitizeChars (sanitizeChars l) = sanitizeChars l := by
  have hmem := mem_sanitizeChars l
  conv_lhs => rw [sanitizeChars]
  rw [List.filter_eq_self.mpr (fun a ha => (hmem a ha).1)]
  rw [dropWhile_eq_self_of_none Char.isWhitespace (sanitizeChars l).reverse
    (fun c hc => (hmem c (List.mem_reverse.mp hc)).2.2)]
  rw [List.reverse_reverse]
  exact map_eq_self_of_fixed spaceToUnderscore (sanitizeChars l)
    (fun c hc => by
      unfold spaceToUnderscore
      exact if_neg (hmem c hc).2.1)

/-- C8: the filename sanitization of lines 213-214 (keep alphanumerics,
spaces, hyphens, underscores; strip trailing whitespace; replace spaces by
underscores) is idempotent: sanitizing an already-sanitized name yields the
same name. -/
theorem sanitize_idempotent (s : String) :
    sanitizeFilename (sanitizeFilename s) = sanitizeFilename s :=
  congrArg String.mk (sanitizeChars_idem s.data)

theorem length_insertBySavedAt (e : CatalogEntry) (l : List CatalogEntry) :
    (insertBySavedAt e l).length = l.length + 1 := by
  induction l with
  | nil => rfl
  | cons x xs ih =>
    unfold insertBySavedAt
    by_cases hx : x.saved_at < e.saved_at
    · rw [if_pos hx]
      rfl
    · rw [if_neg hx]
      simp [ih]

theorem length_sortBySavedAtDesc (l : List CatalogEntry) :
    (sortBySavedAtDesc l).length = l.length := by
  induction l with
  | nil => rfl
  | cons x xs ih =>
    show (insertBySavedAt x (sortBySavedAtDesc xs)).length = xs.length + 1
    rw [length_insertBySavedAt, ih]

theorem mem_insertBySavedAt (a e : CatalogEntry) (l : List CatalogEntry) :
    a ∈ insertBySavedAt e l ↔ a = e ∨ a ∈ l := by
  induction l with
  | nil => simp [insertBySavedAt]
  | cons x xs ih =>
    unfold insertBySavedAt
    by_cases hx : x.saved_at < e.saved_at
    · rw [if_pos hx]
      simp
    · rw [if_neg hx]
      simp [ih]
      tauto

theorem mem_sortBySavedAtDesc (a : CatalogEntry) (l : List CatalogEntry) :
    a ∈ sortBySavedAtDesc l ↔ a ∈ l := by
  induction l with
  | nil => simp [sortBySavedAtDesc]
  | cons x xs ih =>
    show a ∈ insertBySavedAt x (sortBySavedAtDesc xs) ↔ _
    rw [mem_insertBySavedAt, ih]
    simp

theorem catalog_entries_length (files : List FileEntry) :
    (files.filterMap (fun f =>
      match f.content with
      | Except.error _ => none
      | Except.ok a => some (summarize f.name a))).length =
      (files.filter (fun f => f.content.isOk)).length := by
  induction files with
  | nil => rfl
  | cons f t ih =>
    cases hcf : f.content with
    | error e => simp [List.filterMap_cons, List.filter_cons, hcf, Except.isOk, Except.toBool, ih]
    | ok a => simp [List.filterMap_cons, List.filter_cons, hcf, Except.isOk, Except.toBool, ih]

/-- C7: the catalog silently skips every file that fails to parse — the
entries are exactly one per parseable file — and never fails because of
corrupt files; it fails (with the catalog error) only when the directory
enumeration itself fails.  In particular a directory of one valid and one
corrupt file yields exactly one entry, for the valid file. -/
theorem catalog_skips_corrupt (files : List FileEntry) (ents : CatalogOk)
    (h : list_saved_results (Except.ok files) = Except.ok ents) :
    ents.files.length = (files.filter (fun f => f.content.isOk)).length ∧
      ents.total_files = (files.filter (fun f => f.content.isOk)).length ∧
      (∀ e ∈ ents.files, ∃ f ∈ files, ∃ a, f.content = Except.ok a ∧
        e = summarize f.name a) ∧
      list_saved_results (Except.error ()) = Except.error CatalogFailure.CatalogError ∧
      (∀ dir : List FileEntry, ∃ out, list_saved_results (Except.ok dir) = Except.ok out) ∧
      (∀ (name1 name2 : String) (a : ArtifactJson),
        list_saved_results (Except.ok
          [{ name := name1, content := Except.ok a },
           { name := name2, content := Except.error () }]) =
          Except.ok { total_files := 1, files := [summarize name1 a] }) := by
  have hents : ents =
      { total_files := (sortBySavedAtDesc (files.filterMap (fun f =>
          match f.content with
          | Except.error _ => none
          | Except.ok a => some (summarize f.name a)))).length
        files := sortBySavedAtDesc (files.filterMap (fun f =>
          match f.content with
          | Except.error _ => none
          | Except.ok a => some (summarize f.name a))) } :=
    (Except.ok.inj h).symm
  subst hents
  refine ⟨?_, ?_, ?_, rfl, fun dir => ⟨_, rfl⟩, fun name1 name2 a => rfl⟩
  · rw [length_sortBySavedAtDesc]
    exact catalog_entries_length files
  · rw [length_sortBySavedAtDesc]
    exact catalog_entries_length files
  · intro e he
    have he2 := (mem_sortBySavedAtDesc e _).mp he
    obtain ⟨f, hf, hfe⟩ := List.mem_filterMap.mp he2
    refine ⟨f, hf, ?_⟩
    cases hcf : f.content with
    | error u =>
      rw [hcf] at hfe
      exact absurd hfe (by simp)
    | ok a =>
      rw [hcf] at hfe
      simp only [Option.some.injEq] at hfe
      exact ⟨a, rfl, hfe.symm⟩

/-- Witness for C7: a concrete directory of one valid artifact and one
corrupt file yields exactly one catalog entry, for the valid file. -/
theorem catalog_skips_corrupt_witness :
    ({ total_files := 1, files := [summarize "good.json" { metadata := none }] } :
        CatalogOk).files.length =
      (([{ name := "good.json", content := Except.ok { metadata := none } },
          { name := "bad.json", content := Except.error () }] :
        List FileEntry).filter (fun f => f.content.isOk)).length ∧
      ({ total_files := 1, files := [summarize "good.json" { metadata := none }] } :
          CatalogOk).total_files =
        (([{ name := "good.json", content := Except.ok { metadata := none } },
            { name := "bad.json", content := Except.error () }] :
          List FileEntry).filter (fun f => f.content.isOk)).length ∧
      (∀ e ∈ ({ total_files := 1,
                files := [summarize "good.json" { metadata := none }] } :
              CatalogOk).files,
        ∃ f ∈ ([{ name := "good.json", content := Except.ok { metadata := none } },
                { name := "bad.json", content := Except.error () }] :
               List FileEntry), ∃ a, f.content = Except.ok a ∧
          e = summarize f.name a) ∧
      list_saved_results (Except.error ()) = Except.error CatalogFailure.CatalogError ∧
      (∀ dir : List FileEntry, ∃ out, list_saved_results (Except.ok dir) = Except.ok out) ∧
      (∀ (name1 name2 : String) (a : ArtifactJson),
        list_saved_results (Except.ok
          [{ name := name1, content := Except.ok a },
           { name := name2, content := Except.error () }]) =
          Except.ok { total_files := 1, files := [summarize name1 a] }) :=
  catalog_skips_corrupt
    [{ name := "good.json", content := Except.ok { metadata := none } },
     { name := "bad.json", content := Except.error () }]
    { total_files := 1, files := [summarize "good.json" { metadata := none }] }
    rfl

/-- JSON round trip of an artifact written by save: `json.dumps` (line 232)
writes every metadata key of `save_data` — `average_rating` included, as
JSON null when the Python value is `None` — so re-parsing the file yields a
metadata block with every key present. -/
def artifactOfSaved (d : SavedData) : ArtifactJson :=
  { metadata := some
      { session_id := some d.metadata.session_id
        saved_at := some d.metadata.saved_at
        total_results := some (d.metadata.total_results : Int)
        rated_results := some (d.metadata.rated_results : Int)
        average_rating := some d.metadata.average_rating } }

/-- C10: saving a session with no rated records writes `average_rating`
with value null into the metadata, and the catalog reports that entry's
`average_rating` as null — not the default `0`; the `0` default is
substituted only when the `average_rating` key is absent from the parsed
metadata, never when it is present with value null. -/
theorem null_average_not_defaulted (store : Store) (sid : String)
    (filename : Option String) (timestamp saved_at : String)
    (recs : List SearchResult) (hfind : Store.find store sid = some recs)
    (hunrated : ∀ r ∈ recs, r.rating = none) :
    ∃ w, (save_search_results store sid filename timestamp saved_at false).write = some w ∧
      w.content.metadata.average_rating = none ∧
      (∀ name, list_saved_results (Except.ok
          [{ name := name, content := Except.ok (artifactOfSaved w.content) }]) =
        Except.ok { total_files := 1,
                    files := [summarize name (artifactOfSaved w.content)] }) ∧
      (∀ name, (summarize name (artifactOfSaved w.content)).average_rating = none) ∧
      (∀ name m, m.average_rating = none →
        (summarize name { metadata := some m }).average_rating = some 0) ∧
      (∀ name m v, m.average_rating = some v →
        (summarize name { metadata := some m }).average_rating = v) := by
  obtain ⟨w, hw, hc⟩ := save_write_content store sid filename timestamp saved_at recs hfind
  have hnil : calculate_average_rating recs = none := by
    unfold calculate_average_rating
    simp [List.filterMap_eq_nil_iff.mpr hunrated]
  have havg : w.content.metadata.average_rating = none := by
    rw [hc]
    exact hnil
  refine ⟨w, hw, havg, fun name => rfl, fun name => ?_, fun name m hm => ?_, fun name m v hm => ?_⟩
  · simp [summarize, artifactOfSaved, emptyMetaJson, havg]
  · simp [summarize, emptyMetaJson, hm]
  · simp [summarize, emptyMetaJson, hm]

/-- Witness for C10: saving a concrete unrated one-record session writes a
null `average_rating`, and the catalog lists it as null, not 0. -/
theorem null_average_not_defaulted_witness :
    ∃ w, (save_search_results
        [("s", [{ title := "A", url := "u", description := "d",
                  rating := none, rated_at := none }])] "s" none "TS" "SAT" false).write =
        some w ∧
      w.content.metadata.average_rating = none ∧
      (∀ name, list_saved_results (Except.ok
          [{ name := name, content := Except.ok (artifactOfSaved w.content) }]) =
        Except.ok { total_files := 1,
                    files := [summarize name (artifactOfSaved w.content)] }) ∧
      (∀ name, (summarize name (artifactOfSaved w.content)).average_rating = none) ∧
      (∀ name m, m.average_rating = none →
        (summarize name { metadata := some m }).average_rating = some 0) ∧
      (∀ name m v, m.average_rating = some v →
        (summarize name { metadata := some m }).average_rating = v) :=
  null_average_not_defaulted
    [("s", [{ title := "A", url := "u", description := "d",
              rating := none, rated_at := none }])] "s" none "TS" "SAT"
    [{ title := "A", url := "u", description := "d",
       rating := none, rated_at := none }]
    (by decide) (by decide)
